import Mathlib

/-!
Verification development for the neon-spl-governance repository.

The repository contains two source files:
  - addin-vesting/cli/src/main.rs : a command-line client that builds and
    submits vesting transactions. Its only algorithmic fragment is the
    linear vesting-schedule expansion inside parse_schedules, plus the
    instruction assembly in create_transaction.
  - addin-fixed-weights/program/src/config.rs : static constants exported
    as linker symbols through the neon_elf_param macro.

The CLI is compiled as an ordinary release binary, so u64 arithmetic wraps
on overflow (Rust release semantics); explicit panics, unwrap on errors,
division by zero, failing try_into conversions and out-of-bounds indexing
abort the process. The embedding models machine integers as Nat with
explicit reduction modulo 2 ^ 64 where the source can wrap, and models a
panic of the Rust code as the value none (respectively the panicked
outcome below).
-/

/-- 2 ^ 64, the modulus of u64 arithmetic. -/
def U64MOD : Nat := 2 ^ 64

/-- 2 ^ 32, the modulus of u32 arithmetic. -/
def U32MOD : Nat := 2 ^ 32

/-- Wrapping u64 subtraction, as performed by a release build for the
expression end - start in parse_schedules (main.rs line 694). For
a b less than U64MOD this is (a - b) modulo 2 ^ 64. -/
def wrapSub (a b : Nat) : Nat := (a + U64MOD - b) % U64MOD

/-- VestingSchedule from spl_governance_addin_vesting::state, as consumed by
parse_schedules (main.rs lines 730-733): one release time paired with one
amount, both u64. -/
structure VestingSchedule where
  release_time : Nat
  amount : Nat
deriving DecidableEq, Repr

/-- Outcome of running parse_schedules: a schedule list, a process abort
through panic / unwrap, or a process exit through std::process::exit. -/
inductive ParseOutcome where
  | ok (schedules : List VestingSchedule)
  | panicked
  | exited (code : Nat)
deriving DecidableEq, Repr

/-- The per-period part of main.rs line 694: the u128 quotient
(total * release_frequency) / (end - start), before the conversion back
to u64 (that conversion is checked inside expandLinear). -/
def linearPart (total freq start endT : Nat) : Nat :=
  total * freq / wrapSub endT start

/-- The quotient q = total / part of main.rs line 700, giving the number of
full periods. -/
def linearQ (total freq start endT : Nat) : Nat :=
  total / linearPart total freq start endT

/-- The remainder r = total % part of main.rs line 701. -/
def linearR (total freq start endT : Nat) : Nat :=
  total % linearPart total freq start endT

/-- The release times pushed into linear_vesting by the loop of main.rs
lines 703-706: start + n * release_frequency for n in 0..q, with u64
wrapping on the additions and multiplications of a release build. -/
def linearTimes (total freq start endT : Nat) : List Nat :=
  (List.range (linearQ total freq start endT)).map
    (fun n => (start + n * freq) % U64MOD)

/-- The per-period amounts built by main.rs lines 703-710: q copies of the
part (line 705), and when the remainder r is non-zero the entry at index
q - 1 is increased by r (line 709). The case q = 0 with r non-zero, where
the source indexing panics, is excluded by a guard in expandLinear before
this list is used. -/
def linearAmounts (total freq start endT : Nat) : List Nat :=
  if linearR total freq start endT ≠ 0 then
    (List.replicate (linearQ total freq start endT) (linearPart total freq start endT)).set
      (linearQ total freq start endT - 1)
      (linearPart total freq start endT + linearR total freq start endT)
  else List.replicate (linearQ total freq start endT) (linearPart total freq start endT)

/-- The linear expansion inside the release-frequency branch of
parse_schedules (main.rs lines 693-718), for a single total amount,
a release frequency in seconds, and start / end timestamps (all u64).
Returns the pair (linear_vesting, schedule_amounts) of release times and
per-period amounts, or none where the source panics:
  - line 694: the u128 division by ((end - start) as u128) panics when the
    wrapped difference is zero;
  - lines 694-696: try_into().unwrap() to u64 panics when the quotient
    exceeds the u64 range;
  - line 700: total / part panics when part is zero;
  - line 709: indexing schedule_amounts at (q - 1) panics when q is zero
    and the remainder is non-zero;
  - lines 712-714: an explicit panic when more than 365 periods result;
  - line 716: assert_eq of the amount sum against the total. -/
def expandLinear (total freq start endT : Nat) : Option (List Nat × List Nat) :=
  if wrapSub endT start = 0 then none
  else if U64MOD ≤ linearPart total freq start endT then none
  else if linearPart total freq start endT = 0 then none
  else if linearR total freq start endT ≠ 0 ∧ linearQ total freq start endT = 0 then none
  else if 365 < (linearTimes total freq start endT).length then none
  else if (linearAmounts total freq start endT).sum ≠ total then none
  else some (linearTimes total freq start endT, linearAmounts total freq start endT)

/-- parse_schedules (main.rs lines 664-737). Arguments are the already
parsed command-line values: amountsArg is the amounts list (none when the
argument is missing and values_of(..).unwrap() panics), releaseFrequency
is the frequency in seconds (none when no release-frequency was given),
startTime and endTime are the parsed timestamps (none when missing or
unparsable, where the chain of unwraps panics), releaseTimesArg is the
release-times list (none when absent, where expect panics).
In the frequency branch the source first checks that at most one amount
was given (lines 676-678, panic otherwise), reads the total from
schedule_amounts[0] (panics on an empty vector), and runs the linear
expansion. Afterwards a differing number of amounts and times exits the
process with code 1 (lines 724-727), and otherwise the two lists are
zipped position by position into VestingSchedule records. -/
def parse_schedules (amountsArg : Option (List Nat)) (releaseFrequency : Option Nat)
    (startTime endTime : Option Nat) (releaseTimesArg : Option (List Nat)) : ParseOutcome :=
  match amountsArg with
  | none => ParseOutcome.panicked
  | some amounts0 =>
    let branch : Option (List Nat × List Nat) :=
      match releaseFrequency with
      | some freq =>
        if 1 < amounts0.length then none
        else
          match startTime, endTime, amounts0.head? with
          | some start, some endT, some total =>
            (expandLinear total freq start endT).map (fun p => (p.2, p.1))
          | _, _, _ => none
      | none => releaseTimesArg.map (fun ts => (amounts0, ts))
    match branch with
    | none => ParseOutcome.panicked
    | some (schedule_amounts, schedule_times) =>
      if schedule_amounts.length ≠ schedule_times.length then ParseOutcome.exited 1
      else ParseOutcome.ok
        (List.zipWith (fun a h => VestingSchedule.mk h a) schedule_amounts schedule_times)

example : expandLinear 10 1 0 5 = some ([0, 1, 2, 3, 4], [2, 2, 2, 2, 2]) := by decide

example : expandLinear 11 1 0 5 = some ([0, 1, 2, 3, 4], [2, 2, 2, 2, 3]) := by decide

example : expandLinear 10 1 0 20 = none := by decide

/-- Inversion helper: what must hold when expandLinear returns a result. -/
lemma expandLinear_eq_some {total freq start endT : Nat} {times amounts : List Nat}
    (h : expandLinear total freq start endT = some (times, amounts)) :
    linearPart total freq start endT ≠ 0 ∧
    ¬(linearR total freq start endT ≠ 0 ∧ linearQ total freq start endT = 0) ∧
    times = linearTimes total freq start endT ∧
    amounts = linearAmounts total freq start endT ∧
    (linearTimes total freq start endT).length ≤ 365 ∧
    (linearAmounts total freq start endT).sum = total := by
  unfold expandLinear at h
  split at h
  · exact absurd h (by simp)
  · split at h
    · exact absurd h (by simp)
    · split at h
      · exact absurd h (by simp)
      · split at h
        · exact absurd h (by simp)
        · split at h
          · exact absurd h (by simp)
          · split at h
            · exact absurd h (by simp)
            · rename_i h1 h2 h3 h4 h5 h6
              obtain ⟨ht, ha⟩ := Prod.mk.injEq .. ▸ Option.some.injEq .. ▸ h
              exact ⟨h3, h4, ht.symm, ha.symm, Nat.le_of_not_lt h5,
                of_not_not (by simpa using h6)⟩

/-- List helper: every entry of a replicate list read through getD. -/
lemma getD_of_replicate (q part i : Nat) (hi : i < q) :
    (List.replicate q part).getD i 0 = part := by
  simp [List.getD_eq_getElem?_getD, List.getElem?_replicate, hi]

/-- List helper: entries of a replicate list whose last entry was raised. -/
lemma getD_of_replicate_set_last (q part x i : Nat) (hq : q ≠ 0) (hi : i < q) :
    ((List.replicate q part).set (q - 1) x).getD i 0 =
      if i = q - 1 then x else part := by
  rw [List.getD_eq_getElem?_getD, List.getElem?_set]
  by_cases hiq : i = q - 1
  · simp [hiq, List.length_replicate, Nat.sub_lt (Nat.pos_of_ne_zero hq) one_pos]
  · have hne : ¬(q - 1 = i) := fun e => hiq e.symm
    simp [hne, hiq, List.getElem?_replicate, hi]

/-- The amounts list and the times list built by the expansion always have
the same length, namely the quotient q. -/
lemma linearAmounts_length (total freq start endT : Nat) :
    (linearAmounts total freq start endT).length = linearQ total freq start endT := by
  unfold linearAmounts
  split <;> simp

/-- The times list has length q. -/
lemma linearTimes_length (total freq start endT : Nat) :
    (linearTimes total freq start endT).length = linearQ total freq start endT := by
  unfold linearTimes
  simp

/-- C1: For every total amount, release frequency, start timestamp and end
timestamp for which the linear schedule expansion in parse_schedules
completes without panicking, the per-period amounts it generates sum
exactly to the total amount. -/
theorem linear_schedule_sum_eq_total (total freq start endT : Nat)
    (times amounts : List Nat)
    (h : expandLinear total freq start endT = some (times, amounts)) :
    amounts.sum = total := by
  obtain ⟨-, -, -, ha, -, hsum⟩ := expandLinear_eq_some h
  rw [ha]
  exact hsum

/-- Witness for C1 at total 10, frequency 1, start 0, end 5. -/
theorem linear_schedule_sum_eq_total_witness : ([2, 2, 2, 2, 2] : List Nat).sum = 10 :=
  linear_schedule_sum_eq_total 10 1 0 5 [0, 1, 2, 3, 4] [2, 2, 2, 2, 2] (by decide)

/-- C2: in a completed linear expansion every generated period amount
equals the computed per-period part, except that a non-zero remainder of
the division of the total by the part is added to the final period only;
all other periods stay equal to the part. -/
theorem linear_schedule_remainder_to_last (total freq start endT : Nat)
    (times amounts : List Nat)
    (h : expandLinear total freq start endT = some (times, amounts)) :
    amounts.length = linearQ total freq start endT ∧
    ∀ i, i < amounts.length →
      amounts.getD i 0 =
        if linearR total freq start endT ≠ 0 ∧ i = amounts.length - 1 then
          linearPart total freq start endT + linearR total freq start endT
        else linearPart total freq start endT := by
  obtain ⟨-, hqr, -, ha, -, -⟩ := expandLinear_eq_some h
  subst ha
  refine ⟨linearAmounts_length total freq start endT, fun i hi => ?_⟩
  rw [linearAmounts_length] at hi ⊢
  by_cases hr : linearR total freq start endT = 0
  · have hbody : linearAmounts total freq start endT =
        List.replicate (linearQ total freq start endT) (linearPart total freq start endT) := by
      unfold linearAmounts
      simp [hr]
    rw [hbody, getD_of_replicate _ _ _ hi, if_neg]
    rintro ⟨hr0, -⟩
    exact hr0 hr
  · have hq : linearQ total freq start endT ≠ 0 := fun h0 => hqr ⟨hr, h0⟩
    have hbody : linearAmounts total freq start endT =
        (List.replicate (linearQ total freq start endT) (linearPart total freq start endT)).set
          (linearQ total freq start endT - 1)
          (linearPart total freq start endT + linearR total freq start endT) := by
      unfold linearAmounts
      simp [hr]
    rw [hbody, getD_of_replicate_set_last _ _ _ _ hq hi]
    by_cases hiq : i = linearQ total freq start endT - 1
    · rw [if_pos hiq, if_pos ⟨hr, hiq⟩]
    · rw [if_neg hiq, if_neg]
      rintro ⟨-, hiq2⟩
      exact hiq hiq2

/-- Witness for C2 at total 11, frequency 1, start 0, end 5: the final
period receives the remainder 1 on top of the part 2. -/
theorem linear_schedule_remainder_to_last_witness :
    ([2, 2, 2, 2, 3] : List Nat).getD 4 0 =
      linearPart 11 1 0 5 + linearR 11 1 0 5 := by
  have h4 := (linear_schedule_remainder_to_last 11 1 0 5 [0, 1, 2, 3, 4] [2, 2, 2, 2, 3]
    (by decide)).2 4 (by decide)
  rw [if_pos (by decide)] at h4
  exact h4

/-- C3: whenever the linear schedule expansion returns, the number of
generated vesting periods does not exceed 365. -/
theorem linear_schedule_period_cap (total freq start endT : Nat)
    (times amounts : List Nat)
    (h : expandLinear total freq start endT = some (times, amounts)) :
    times.length ≤ 365 ∧ amounts.length ≤ 365 := by
  obtain ⟨-, -, ht, ha, hcap, -⟩ := expandLinear_eq_some h
  subst ht ha
  refine ⟨hcap, ?_⟩
  rw [linearAmounts_length]
  rw [linearTimes_length] at hcap
  exact hcap

/-- Witness for C3 at total 10, frequency 1, start 0, end 5. -/
theorem linear_schedule_period_cap_witness :
    ([0, 1, 2, 3, 4] : List Nat).length ≤ 365 ∧ ([2, 2, 2, 2, 2] : List Nat).length ≤ 365 :=
  linear_schedule_period_cap 10 1 0 5 [0, 1, 2, 3, 4] [2, 2, 2, 2, 2] (by decide)

/-- When the total is smaller than the part, the expansion panics: q is 0,
the remainder equals the whole total, and the indexing at q - 1 on main.rs
line 709 aborts the process. -/
lemma expandLinear_none_of_total_lt_part (total freq start endT : Nat)
    (hlt : total < linearPart total freq start endT) :
    expandLinear total freq start endT = none := by
  have hp0 : linearPart total freq start endT ≠ 0 :=
    (Nat.lt_of_le_of_lt (Nat.zero_le total) hlt).ne'
  have htotal : total ≠ 0 := by
    intro h0
    apply hp0
    unfold linearPart
    rw [h0, Nat.zero_mul, Nat.zero_div]
  have hq : linearQ total freq start endT = 0 := by
    unfold linearQ
    exact Nat.div_eq_of_lt hlt
  have hr : linearR total freq start endT ≠ 0 := by
    unfold linearR
    rw [Nat.mod_eq_of_lt hlt]
    exact htotal
  unfold expandLinear
  repeat' split
  all_goals simp_all

/-- When total * frequency is smaller than the wrapped end - start
difference, the part of main.rs line 694 is 0 and the division on line 700
panics with a division by zero. -/
lemma expandLinear_none_of_small_total (total freq start endT : Nat)
    (hlt : total * freq < wrapSub endT start) :
    expandLinear total freq start endT = none := by
  have hdiff : ¬(wrapSub endT start = 0) := by
    intro h0
    rw [h0] at hlt
    exact Nat.not_lt_zero _ hlt
  have hp : linearPart total freq start endT = 0 := by
    unfold linearPart
    exact Nat.div_eq_of_lt hlt
  unfold expandLinear
  rw [if_neg hdiff, if_neg (by rw [hp]; exact Nat.not_le.mpr (by decide)), if_pos hp]

/-- C4: the linear expansion completes only when the computed per-period
part lies between 1 and the total: a part of 0 (arising whenever
total * frequency is below the wrapped end - start difference) makes the
division on main.rs line 700 panic, and a part above the total makes q
zero with a non-zero remainder, so the index q - 1 on line 709 underflows
and the process panics. -/
theorem linear_part_bounds (total freq start endT : Nat) :
    (∀ times amounts, expandLinear total freq start endT = some (times, amounts) →
        1 ≤ linearPart total freq start endT ∧
        linearPart total freq start endT ≤ total) ∧
    (total * freq < wrapSub endT start →
        linearPart total freq start endT = 0 ∧
        expandLinear total freq start endT = none) ∧
    (total < linearPart total freq start endT →
        linearQ total freq start endT = 0 ∧
        expandLinear total freq start endT = none) := by
  refine ⟨?_,
    fun hlt => ⟨by unfold linearPart; exact Nat.div_eq_of_lt hlt,
      expandLinear_none_of_small_total total freq start endT hlt⟩,
    fun hlt => ⟨by unfold linearQ; exact Nat.div_eq_of_lt hlt,
      expandLinear_none_of_total_lt_part total freq start endT hlt⟩⟩
  intro times amounts h
  obtain ⟨hp, -, -, -, -, -⟩ := expandLinear_eq_some h
  refine ⟨Nat.one_le_iff_ne_zero.mpr hp, Nat.le_of_not_lt fun hlt => ?_⟩
  rw [expandLinear_none_of_total_lt_part total freq start endT hlt] at h
  exact Option.noConfusion h

/-- Witness for C4: with total 10, frequency 1, start 0, end 20 the
product 10 is below the difference 20, so the expansion panics. -/
theorem linear_part_bounds_witness :
    linearPart 10 1 0 20 = 0 ∧ expandLinear 10 1 0 20 = none :=
  (linear_part_bounds 10 1 0 20).2.1 (by decide)

/-- C6: when a release-frequency is given (linear vesting mode),
parse_schedules accepts exactly one amount as the total; with more than
one amount the explicit panic on main.rs lines 676-678 aborts the
process. -/
theorem linear_mode_single_amount (amounts : List Nat) (freq : Nat)
    (startTime endTime : Option Nat) (releaseTimesArg : Option (List Nat))
    (hlen : 1 < amounts.length) :
    parse_schedules (some amounts) (some freq) startTime endTime releaseTimesArg =
      ParseOutcome.panicked := by
  unfold parse_schedules
  simp [hlen]

/-- Witness for C6: two amounts together with a frequency panic. -/
theorem linear_mode_single_amount_witness :
    parse_schedules (some [1, 2]) (some 60) (some 0) (some 100) none =
      ParseOutcome.panicked :=
  linear_mode_single_amount [1, 2] 60 (some 0) (some 100) none (by decide)

/-- C10: in explicit release-times mode parse_schedules exits the process
with code 1 whenever the number of amounts differs from the number of
release times; with equal counts it returns a list of that common length
pairing the i-th amount with the i-th release time. -/
theorem explicit_mode_pairs (amounts times : List Nat)
    (startTime endTime : Option Nat) :
    (amounts.length ≠ times.length →
      parse_schedules (some amounts) none startTime endTime (some times) =
        ParseOutcome.exited 1) ∧
    (amounts.length = times.length →
      parse_schedules (some amounts) none startTime endTime (some times) =
        ParseOutcome.ok (List.zipWith (fun a h => VestingSchedule.mk h a) amounts times) ∧
      (List.zipWith (fun a h => VestingSchedule.mk h a) amounts times).length =
        amounts.length ∧
      ∀ i, i < amounts.length →
        (List.zipWith (fun a h => VestingSchedule.mk h a) amounts times).getD i
            (VestingSchedule.mk 0 0) =
          VestingSchedule.mk (times.getD i 0) (amounts.getD i 0)) := by
  constructor
  · intro hne
    unfold parse_schedules
    simp [hne]
  · intro heq
    refine ⟨by unfold parse_schedules; simp [heq], by simp [List.length_zipWith, heq], ?_⟩
    intro i hi
    have hit : i < times.length := heq ▸ hi
    rw [List.getD_eq_getElem?_getD, List.getElem?_zipWith,
      List.getElem?_eq_getElem hi, List.getElem?_eq_getElem hit]
    simp [List.getD_eq_getElem?_getD, List.getElem?_eq_getElem, hi, hit]

/-- Witness for C10: equal counts produce the positional pairing, and the
first entry pairs the first amount with the first release time. -/
theorem explicit_mode_pairs_witness :
    parse_schedules (some [5, 7]) none none none (some [100, 200]) =
      ParseOutcome.ok [VestingSchedule.mk 100 5, VestingSchedule.mk 200 7] :=
  ((explicit_mode_pairs [5, 7] [100, 200] none none).2 (by decide)).1

/-- Instructions as assembled by the CLI. Compute-budget instructions are
the two built in create_transaction (main.rs lines 78-81); every other
instruction the callers pass in is kept abstract as its serialized
bytes. -/
inductive Instr where
  | computeUnitLimit (units : Nat)
  | computeUnitPrice (price : Nat)
  | app (data : List Nat)
deriving DecidableEq, Repr

/-- The remote results consulted by create_transaction: the latest
blockhash (main.rs line 66, none when the RPC call fails and expect
panics) and the simulation outcome (lines 68-77, none when
simulate_transaction fails, some none when the response carries no
units_consumed; expect panics in both cases). -/
structure RpcEnv where
  latestBlockhash : Option Nat
  simulatedUnitsConsumed : Option (Option Nat)
deriving DecidableEq, Repr

/-- The compute-unit limit computed on main.rs line 79:
((units_consumed * 110) / 100) as u32, where units_consumed is the
simulated value plus 300 (line 77). All u64 products wrap modulo 2 ^ 64 in
a release build and the cast to u32 truncates modulo 2 ^ 32. -/
def computeUnitLimitOf (unitsSimulated : Nat) : Nat :=
  ((unitsSimulated + 300) % U64MOD * 110 % U64MOD) / 100 % U32MOD

/-- create_transaction (main.rs lines 59-94), restricted to the data the
claims are about: the instruction list finally placed in the submitted
transaction. Fetching the blockhash always happens first (line 66); when a
compute-unit price is supplied the transaction is simulated and two
compute-budget instructions are prepended (lines 67-84), otherwise the
callers instruction list is used unchanged (lines 82-85). none models the
process aborting through one of the expect calls. The signing steps on
lines 87-91 are local operations on the built transaction and do not
change the instruction list, so they are not modelled. -/
def create_transaction (env : RpcEnv) (instructions : List Instr)
    (computeUnitPrice : Option Nat) : Option (List Instr) :=
  match env.latestBlockhash with
  | none => none
  | some _ =>
    match computeUnitPrice with
    | some price =>
      match env.simulatedUnitsConsumed with
      | none => none
      | some none => none
      | some (some u) =>
        some (Instr.computeUnitLimit (computeUnitLimitOf u) ::
          Instr.computeUnitPrice price :: instructions)
    | none => some instructions

/-- The remote results consulted by command_withdraw_svc (main.rs lines
264-292): the withdraw instruction builder result (none when the builder
fails and unwrap panics), the create_transaction environment, and whether
send_transaction succeeds (line 291, unwrap panics otherwise). -/
structure WithdrawEnv where
  withdrawInstruction : Option Instr
  rpc : RpcEnv
  sendOk : Bool
deriving DecidableEq, Repr

/-- command_withdraw_svc (main.rs lines 264-292): builds the withdraw
instruction, wraps it through create_transaction, and submits it. Returns
the submitted instruction list on success and none when any step aborts
the process. -/
def command_withdraw_svc (env : WithdrawEnv) (computeUnitPrice : Option Nat) :
    Option (List Instr) :=
  match env.withdrawInstruction with
  | none => none
  | some ix =>
    match create_transaction env.rpc [ix] computeUnitPrice with
    | none => none
    | some instrs => if env.sendOk then some instrs else none

/-- Counterexample to C5 as stated: at a simulated consumption of
9999999700 units, the limit instruction the code builds carries
2410065408, the low 32 bits of 11000000000, and not 110 percent of
(9999999700 + 300), because the cast to u32 on main.rs line 79
truncates. -/
theorem compute_budget_exact_percentage_counterexample :
    create_transaction (RpcEnv.mk (some 0) (some (some 9999999700))) [] (some 1) ≠
      some [Instr.computeUnitLimit ((9999999700 + 300) * 110 / 100),
        Instr.computeUnitPrice 1] := by decide

/-- C5 (amended): if and only if a compute-unit price is supplied, exactly
two compute-budget instructions are prepended before the instructions of
the caller: a compute-unit limit equal to 110 percent of (the simulated
units consumed plus 300), computed in wrapping 64-bit arithmetic and
truncated to 32 bits (so equal to exactly 110 percent whenever that value
fits in a u32), and a compute-unit price set to the supplied value; with
no compute-unit price the submitted instruction list equals the list of
the caller unchanged. -/
theorem create_transaction_compute_budget (env : RpcEnv) (instructions : List Instr)
    (price u : Nat) :
    (env.latestBlockhash.isSome →
      env.simulatedUnitsConsumed = some (some u) →
      create_transaction env instructions (some price) =
        some (Instr.computeUnitLimit (computeUnitLimitOf u) ::
          Instr.computeUnitPrice price :: instructions)) ∧
    (env.latestBlockhash.isSome →
      create_transaction env instructions none = some instructions) ∧
    (u + 300 < U64MOD → (u + 300) * 110 / 100 < U32MOD →
      computeUnitLimitOf u = (u + 300) * 110 / 100) := by
  obtain ⟨bh, sim⟩ := env
  refine ⟨?_, ?_, ?_⟩
  · intro hb hsim
    cases bh with
    | none => simp at hb
    | some b =>
      simp only [RpcEnv.simulatedUnitsConsumed] at hsim
      subst hsim
      rfl
  · intro hb
    cases bh with
    | none => simp at hb
    | some b => rfl
  · intro h1 h2
    unfold computeUnitLimitOf
    have h3 : (u + 300) * 110 < U32MOD * 100 :=
      (Nat.div_lt_iff_lt_mul (by decide)).mp h2
    have h4 : (u + 300) * 110 < U64MOD := lt_trans h3 (by decide)
    rw [Nat.mod_eq_of_lt h1, Nat.mod_eq_of_lt h4, Nat.mod_eq_of_lt h2]

/-- Witness for C5 (amended): with a price of 9 and 700 simulated units,
the limit 1100 equals exactly 110 percent of 1000 and the two budget
instructions precede the single caller instruction. -/
theorem create_transaction_compute_budget_witness :
    create_transaction (RpcEnv.mk (some 0) (some (some 700))) [Instr.app [1]] (some 9) =
      some [Instr.computeUnitLimit 1100, Instr.computeUnitPrice 9, Instr.app [1]] := by
  have h := (create_transaction_compute_budget (RpcEnv.mk (some 0) (some (some 700)))
    [Instr.app [1]] 9 700).1 (by decide) (by decide)
  exact h.trans (by decide)

/-- Helper: command_withdraw_svc succeeds if and only if every remote call
it performs succeeds: the withdraw instruction builder, the blockhash
fetch, the simulation (consulted exactly when a compute-unit price is
supplied), and the transaction submission; any failure on this path aborts
the process. -/
theorem withdraw_fail_fast (env : WithdrawEnv) (price : Option Nat) :
    (command_withdraw_svc env price).isSome ↔
      (env.withdrawInstruction.isSome ∧ env.rpc.latestBlockhash.isSome ∧
        (price.isSome → ∃ u, env.rpc.simulatedUnitsConsumed = some (some u)) ∧
        env.sendOk = true) := by
  obtain ⟨wi, ⟨bh, sim⟩, send⟩ := env
  cases wi <;> cases bh <;> cases send <;> cases price <;>
    rcases sim with _ | _ | u <;>
    simp [command_withdraw_svc, create_transaction]

/-- Concrete instance of the helper: with every remote call succeeding,
the withdraw subcommand submits a transaction. -/
theorem withdraw_fail_fast_witness :
    (command_withdraw_svc
      (WithdrawEnv.mk (some (Instr.app [0])) (RpcEnv.mk (some 1) (some (some 700))) true)
      (some 2)).isSome :=
  (withdraw_fail_fast
    (WithdrawEnv.mk (some (Instr.app [0])) (RpcEnv.mk (some 1) (some (some 700))) true)
    (some 2)).mpr ⟨rfl, rfl, fun _ => ⟨700, rfl⟩, rfl⟩

/-- A public key, modelled as its 32-byte content; as_ref on a Pubkey in
the source yields exactly these bytes. -/
abbrev PubkeyBytes := List Nat

/-- The vesting account derivation of the withdraw subcommand, main.rs
line 1189: Pubkey::find_program_address over the single seed holding the
vesting token key bytes, under the vesting program id. The derivation
function itself (SHA256 based, deterministic library code outside this
repository) is taken as an arbitrary function fpa from a seed list and a
program id to an address and bump. -/
def withdraw_vesting_pubkey (fpa : List PubkeyBytes → PubkeyBytes → PubkeyBytes × Nat)
    (vesting_token program_id : PubkeyBytes) : PubkeyBytes × Nat :=
  fpa [vesting_token] program_id

/-- The vesting account derivation of the change-owner subcommand,
main.rs line 1235. -/
def change_owner_vesting_pubkey (fpa : List PubkeyBytes → PubkeyBytes → PubkeyBytes × Nat)
    (vesting_token program_id : PubkeyBytes) : PubkeyBytes × Nat :=
  fpa [vesting_token] program_id

/-- The vesting account derivation of command_split, main.rs line 488. -/
def split_vesting_pubkey (fpa : List PubkeyBytes → PubkeyBytes → PubkeyBytes × Nat)
    (vesting_token program_id : PubkeyBytes) : PubkeyBytes × Nat :=
  fpa [vesting_token] program_id

/-- The vesting account derivation of command_info, main.rs line 630. -/
def info_vesting_pubkey (fpa : List PubkeyBytes → PubkeyBytes → PubkeyBytes × Nat)
    (vesting_token program_id : PubkeyBytes) : PubkeyBytes × Nat :=
  fpa [vesting_token] program_id

/-- C8: vesting account address derivation is deterministic and uniform.
For every derivation function, vesting token address and program id, the
withdraw, change-owner, split and info subcommands derive the same
address, namely the derivation applied to the single seed holding the
vesting token key under the program id, and two runs with the same inputs
derive the same address. -/
theorem vesting_address_derivation_agrees
    (fpa : List PubkeyBytes → PubkeyBytes → PubkeyBytes × Nat)
    (vesting_token program_id : PubkeyBytes) :
    withdraw_vesting_pubkey fpa vesting_token program_id =
      change_owner_vesting_pubkey fpa vesting_token program_id ∧
    withdraw_vesting_pubkey fpa vesting_token program_id =
      split_vesting_pubkey fpa vesting_token program_id ∧
    withdraw_vesting_pubkey fpa vesting_token program_id =
      info_vesting_pubkey fpa vesting_token program_id ∧
    withdraw_vesting_pubkey fpa vesting_token program_id =
      fpa [vesting_token] program_id ∧
    ∀ vt2 pid2, vesting_token = vt2 → program_id = pid2 →
      withdraw_vesting_pubkey fpa vesting_token program_id =
        withdraw_vesting_pubkey fpa vt2 pid2 := by
  refine ⟨rfl, rfl, rfl, rfl, ?_⟩
  intro vt2 pid2 h1 h2
  rw [h1, h2]

/-- Witness for C8 at a concrete derivation function and concrete keys. -/
theorem vesting_address_derivation_agrees_witness :
    withdraw_vesting_pubkey (fun s p => (s.headD p, 255)) [1, 2] [3] =
      withdraw_vesting_pubkey (fun s p => (s.headD p, 255)) [1, 2] [3] :=
  (vesting_address_derivation_agrees (fun s p => (s.headD p, 255)) [1, 2] [3]).2.2.2.2
    [1, 2] [3] rfl rfl

/-- The byte content of a string, one entry per character. Every string
the config module exports consists of ASCII decimal digits, for which the
UTF8 bytes produced by as_bytes are exactly the character codes. -/
def stringBytes (s : String) : List Nat := s.data.map Char.toNat

/-- The array built by the neon_elf_param macro (config.rs lines 7-25):
an array whose length is the length of the string value, initialised to
zeros and filled by the while loop with byte i of the value at slot i. -/
def neon_elf_param (value : String) : List Nat :=
  (List.range (stringBytes value).length).map (fun i => (stringBytes value).getD i 0)

/-- TOKEN_MULT (config.rs line 39): u64::pow(10, 9). -/
def TOKEN_MULT : Nat := 10 ^ 9

/-- EXTRA_TOKENS (config.rs line 42): 290_000_000 * TOKEN_MULT. -/
def EXTRA_TOKENS : Nat := 290000000 * TOKEN_MULT

/-- SUPPLY_FRACTION (config.rs line 45):
MintMaxVoteWeightSource::SUPPLY_FRACTION_BASE / 10. The base constant
lives in the external spl_governance crate, so it stays a parameter. -/
def SUPPLY_FRACTION (supplyFractionBase : Nat) : Nat := supplyFractionBase / 10

/-- Modelled from Rust std: the Debug formatting a u64 value receives from
formatcp on config.rs lines 47-49 prints the decimal digits of the
value. -/
def u64DebugString (n : Nat) : String := Nat.repr n

/-- PARAM_TOKEN_MULT (config.rs line 47). -/
def PARAM_TOKEN_MULT : List Nat := neon_elf_param (u64DebugString TOKEN_MULT)

/-- PARAM_EXTRA_TOKENS (config.rs line 48). -/
def PARAM_EXTRA_TOKENS : List Nat := neon_elf_param (u64DebugString EXTRA_TOKENS)

/-- PARAM_SUPPLY_FRACTION (config.rs line 49), as a function of the
external base constant. -/
def PARAM_SUPPLY_FRACTION (supplyFractionBase : Nat) : List Nat :=
  neon_elf_param (u64DebugString (SUPPLY_FRACTION supplyFractionBase))

/-- The macro fill loop reproduces the byte content of the value. -/
lemma neon_elf_param_eq (value : String) : neon_elf_param value = stringBytes value := by
  unfold neon_elf_param
  apply List.ext_getElem
  · simp
  · intro i h1 h2
    simp only [List.getElem_map, List.getElem_range]
    rw [List.getD_eq_getElem?_getD, List.getElem?_eq_getElem h2]
    rfl

/-- C9: the exported symbols PARAM_TOKEN_MULT, PARAM_EXTRA_TOKENS and
PARAM_SUPPLY_FRACTION hold exactly the decimal string representations of
10 ^ 9, of 290000000 * 10 ^ 9 and of SUPPLY_FRACTION_BASE / 10, with the
array length equal to the length of that decimal string. -/
theorem elf_params_decimal_strings :
    PARAM_TOKEN_MULT = stringBytes (Nat.repr (10 ^ 9)) ∧
    PARAM_TOKEN_MULT = [49, 48, 48, 48, 48, 48, 48, 48, 48, 48] ∧
    PARAM_TOKEN_MULT.length = (Nat.repr (10 ^ 9)).length ∧
    PARAM_EXTRA_TOKENS = stringBytes (Nat.repr (290000000 * 10 ^ 9)) ∧
    PARAM_EXTRA_TOKENS =
      [50, 57, 48, 48, 48, 48, 48, 48, 48, 48, 48, 48, 48, 48, 48, 48, 48, 48] ∧
    PARAM_EXTRA_TOKENS.length = (Nat.repr (290000000 * 10 ^ 9)).length ∧
    ∀ supplyFractionBase,
      PARAM_SUPPLY_FRACTION supplyFractionBase =
        stringBytes (Nat.repr (supplyFractionBase / 10)) ∧
      (PARAM_SUPPLY_FRACTION supplyFractionBase).length =
        (Nat.repr (supplyFractionBase / 10)).length := by
  refine ⟨by decide, by decide, by decide, by decide, by decide, by decide, ?_⟩
  intro base
  have h := neon_elf_param_eq (u64DebugString (SUPPLY_FRACTION base))
  refine ⟨h, ?_⟩
  have h2 : PARAM_SUPPLY_FRACTION base = stringBytes (Nat.repr (base / 10)) := h
  rw [h2]
  unfold stringBytes
  rw [List.length_map]
  rfl

/-- VestingRecord from spl_governance_addin_vesting::state, restricted to
the fields the CLI consumes (main.rs lines 491, 521, 525, 537, 600-602,
640-645): owner, mint, token, optional realm, and the schedule list. The
defining crate lives outside this repository; the record reaches the CLI
only through borsh deserialization of fetched account bytes, which the
command models below take as an input. -/
structure VestingRecord where
  owner : PubkeyBytes
  mint : PubkeyBytes
  token : PubkeyBytes
  realm : Option PubkeyBytes
  schedule : List VestingSchedule
deriving DecidableEq, Repr

/-- The condition of main.rs line 377: the probe of the new voter weight
record account needs a fresh record when get_account_data returned an
error (modelled none) or returned empty account data. -/
def needsVoterWeightRecord (probe : Option (List Nat)) : Bool :=
  match probe with
  | none => true
  | some data => data.isEmpty

/-- The remote results consulted by command_change_owner_with_realm
(main.rs lines 359-410): the get_account_data probe of the new voter
weight record (line 376, none for an RPC error, otherwise the raw account
bytes), the two instruction builder results (lines 379-386 and 390-399,
none when the builder fails and unwrap panics), the create_transaction
environment, and the submission result. -/
structure ChangeOwnerRealmEnv where
  newVoterWeightRecordData : Option (List Nat)
  createVoterWeightRecordInstruction : Option Instr
  changeOwnerInstruction : Option Instr
  rpc : RpcEnv
  sendOk : Bool
deriving DecidableEq, Repr

/-- command_change_owner_with_realm (main.rs lines 359-410): probes the
new voter weight record account; when the probe errs or the account is
empty, the command does NOT abort but pushes a create_voter_weight_record
instruction (lines 377-388) and continues; it then builds the
change_owner_with_realm instruction, wraps everything through
create_transaction and submits. Returns the submitted instruction list,
or none where an unwrap aborts the process. -/
def command_change_owner_with_realm (env : ChangeOwnerRealmEnv)
    (computeUnitPrice : Option Nat) : Option (List Instr) :=
  let leading : Option (List Instr) :=
    if needsVoterWeightRecord env.newVoterWeightRecordData then
      match env.createVoterWeightRecordInstruction with
      | none => none
      | some ix => some [ix]
    else some []
  match leading with
  | none => none
  | some leadingInstrs =>
    match env.changeOwnerInstruction with
    | none => none
    | some changeIx =>
      match create_transaction env.rpc (leadingInstrs ++ [changeIx]) computeUnitPrice with
      | none => none
      | some instrs => if env.sendOk then some instrs else none

/-- Collects a list of instruction builder results the way the source
unwraps each one in turn inside an array literal: the first builder error
aborts the process (none), otherwise all built instructions are kept in
order. -/
def collectInstructions (builders : List (Option Instr)) : Option (List Instr) :=
  match builders with
  | [] => some []
  | b :: rest =>
    match b with
    | none => none
    | some ix => (collectInstructions rest).map (fun tail => ix :: tail)

/-- The shared submission shape of command_deposit_svc (main.rs lines
98-176), command_deposit_with_realm_svc (179-262),
command_withdraw_with_realm_svc (295-328), command_change_owner (330-356),
command_create_voter_weight_record (412-439) and
command_set_vote_percentage_with_realm (441-474): each unwraps a fixed
list of instruction builder results, wraps them through
create_transaction with unwrap, and submits with unwrap (for the deposit
commands either send_transaction or the confirming variant, both
unwrapped, so a single submission flag suffices). -/
def command_submit (builders : List (Option Instr)) (rpc : RpcEnv) (sendOk : Bool)
    (computeUnitPrice : Option Nat) : Option (List Instr) :=
  match collectInstructions builders with
  | none => none
  | some ixs =>
    match create_transaction rpc ixs computeUnitPrice with
    | none => none
    | some instrs => if sendOk then some instrs else none

/-- The remote results consulted by command_split (main.rs lines 477-561):
the get_account_data fetch of the vesting record (line 490, unwrapped, so
none is fatal), its borsh deserialization (line 491, unwrapped), the
infallible create_account instruction (lines 510-516), the
initialize_account builder (lines 518-523), and the two split builders of
which the vesting record realm selects one (lines 525-550); then the
create_transaction environment and the submission result. -/
structure SplitEnv where
  vestingRecordData : Option (List Nat)
  parsedRecord : Option VestingRecord
  createAccountInstruction : Instr
  initializeAccountInstruction : Option Instr
  splitInstruction : Option Instr
  splitWithRealmInstruction : Option Instr
  rpc : RpcEnv
  sendOk : Bool
deriving DecidableEq, Repr

/-- command_split (main.rs lines 477-561). The progress messages and
report_schedules printing (lines 501-507) are display formatting and not
modelled. -/
def command_split (env : SplitEnv) (computeUnitPrice : Option Nat) : Option (List Instr) :=
  match env.vestingRecordData with
  | none => none
  | some _ =>
    match env.parsedRecord with
    | none => none
    | some record =>
      match env.initializeAccountInstruction with
      | none => none
      | some initIx =>
        match (match record.realm with
               | some _ => env.splitWithRealmInstruction
               | none => env.splitInstruction) with
        | none => none
        | some splitIx =>
          match create_transaction env.rpc
              [env.createAccountInstruction, initIx, splitIx] computeUnitPrice with
          | none => none
          | some instrs => if env.sendOk then some instrs else none

/-- The remote results consulted by command_info (main.rs lines 621-637):
the get_account_data fetch of the vesting record (line 633, unwrapped)
and its borsh deserialization (line 634, unwrapped). -/
structure InfoEnv where
  vestingRecordData : Option (List Nat)
  parsedRecord : Option VestingRecord
deriving DecidableEq, Repr

/-- command_info (main.rs lines 621-637): fetches and deserializes the
vesting record, aborting on either failure, and reports it. The
report_vesting_record_info printing (lines 635-636) is display formatting
and not modelled. -/
def command_info (env : InfoEnv) : Option VestingRecord :=
  match env.vestingRecordData with
  | none => none
  | some _ => env.parsedRecord

/-- The remote results consulted by command_list (main.rs lines 563-619):
the get_program_accounts_with_config query (lines 568-590, unwrapped, so
none is fatal) delivering address and account-data pairs, and the borsh
deserialization applied to each account (line 600, unwrapped per
record). -/
structure ListEnv where
  programAccounts : Option (List (PubkeyBytes × List Nat))
  parseRecord : List Nat → Option VestingRecord

/-- The per-record processing of command_list (main.rs lines 597-604):
each account is deserialized with unwrap, so the first parse failure
aborts the process; otherwise every record contributes its token, owner
and summed schedule amount. -/
def collectRecords (parse : List Nat → Option VestingRecord)
    (records : List (PubkeyBytes × List Nat)) :
    Option (List (PubkeyBytes × PubkeyBytes × Nat)) :=
  match records with
  | [] => some []
  | (_, account) :: rest =>
    match parse account with
    | none => none
    | some v =>
      match collectRecords parse rest with
      | none => none
      | some tail =>
        some ((v.token, v.owner, (v.schedule.map VestingSchedule.amount).sum) :: tail)

/-- command_list (main.rs lines 563-619): queries the program accounts,
aborting on a query error, and deserializes every record, aborting on the
first parse failure. The descending sort by amount and the printed report
(lines 605-618) are display formatting and not modelled. -/
def command_list (env : ListEnv) : Option (List (PubkeyBytes × PubkeyBytes × Nat)) :=
  match env.programAccounts with
  | none => none
  | some records => collectRecords env.parseRecord records

/-- An instruction list is collected exactly when every builder
succeeded. -/
lemma collectInstructions_isSome (builders : List (Option Instr)) :
    (collectInstructions builders).isSome ↔ ∀ b, b ∈ builders → b.isSome := by
  induction builders with
  | nil => simp [collectInstructions]
  | cons b rest ih =>
    cases b with
    | none => simp [collectInstructions]
    | some ix => simp [collectInstructions, ih]

/-- One failing record deserialization aborts the whole listing. -/
lemma collectRecords_eq_none_of_mem (parse : List Nat → Option VestingRecord)
    (records : List (PubkeyBytes × List Nat)) (pk : PubkeyBytes) (acct : List Nat)
    (hmem : (pk, acct) ∈ records) (hparse : parse acct = none) :
    collectRecords parse records = none := by
  induction records with
  | nil => cases hmem
  | cons head rest ih =>
    obtain ⟨hpk, hacct⟩ := head
    rcases List.mem_cons.mp hmem with h | h
    · obtain ⟨h1, h2⟩ := Prod.mk.injEq .. ▸ h
      subst h2
      simp [collectRecords, hparse]
    · simp only [collectRecords]
      cases hp : parse hacct with
      | none => rfl
      | some v => rw [ih h]

/-- Counterexample to C7 as stated: in command_change_owner_with_realm an
error of the get_account_data probe of the new voter weight record (the
first component of the environment) does not abort the process; the
command recovers by prepending a create_voter_weight_record instruction
and still submits the transaction. -/
theorem remote_error_fatality_counterexample :
    command_change_owner_with_realm
      (ChangeOwnerRealmEnv.mk none (some (Instr.app [1])) (some (Instr.app [2]))
        (RpcEnv.mk (some 0) (some (some 700))) true) none =
      some [Instr.app [1], Instr.app [2]] ∧
    command_change_owner_with_realm
      (ChangeOwnerRealmEnv.mk none (some (Instr.app [1])) (some (Instr.app [2]))
        (RpcEnv.mk (some 0) (some (some 700))) true) none ≠ none := by
  refine ⟨by decide, by decide⟩

/-- C7 (amended): every remote-call or parse error is fatal, with one
exception. For the fixed-instruction submission commands (deposit, both
withdraw variants, change-owner without realm, create-voter-weight-record,
set-vote-percentage), the run succeeds iff every instruction builder, the
blockhash fetch, the simulation (consulted exactly when a compute-unit
price is supplied) and the submission succeed. In change-owner with a
realm, an error of (or empty data from) the get_account_data probe of the
new voter weight record is recovered by prepending a
create_voter_weight_record instruction and continuing, and success does
not require that probe to succeed; every other step of that command is
fatal as before. In split and info, a failure of the vesting record fetch
or of its deserialization aborts the process, and in list a failure of the
program accounts query or of any record deserialization aborts the
process. -/
theorem remote_errors_fatal_except_record_probe
    (builders : List (Option Instr)) (rpc : RpcEnv) (sendOk : Bool)
    (wenv : WithdrawEnv) (cenv : ChangeOwnerRealmEnv) (senv : SplitEnv)
    (ienv : InfoEnv) (lenv : ListEnv) (price : Option Nat) :
    ((command_submit builders rpc sendOk price).isSome ↔
      ((∀ b, b ∈ builders → b.isSome) ∧ rpc.latestBlockhash.isSome ∧
        (price.isSome → ∃ u, rpc.simulatedUnitsConsumed = some (some u)) ∧
        sendOk = true)) ∧
    ((command_withdraw_svc wenv price).isSome ↔
      (wenv.withdrawInstruction.isSome ∧ wenv.rpc.latestBlockhash.isSome ∧
        (price.isSome → ∃ u, wenv.rpc.simulatedUnitsConsumed = some (some u)) ∧
        wenv.sendOk = true)) ∧
    ((command_change_owner_with_realm cenv price).isSome ↔
      ((needsVoterWeightRecord cenv.newVoterWeightRecordData = true →
          cenv.createVoterWeightRecordInstruction.isSome) ∧
        cenv.changeOwnerInstruction.isSome ∧ cenv.rpc.latestBlockhash.isSome ∧
        (price.isSome → ∃ u, cenv.rpc.simulatedUnitsConsumed = some (some u)) ∧
        cenv.sendOk = true)) ∧
    ((senv.vestingRecordData = none → command_split senv price = none) ∧
      (senv.parsedRecord = none → command_split senv price = none)) ∧
    ((ienv.vestingRecordData = none → command_info ienv = none) ∧
      (ienv.parsedRecord = none → command_info ienv = none)) ∧
    ((lenv.programAccounts = none → command_list lenv = none) ∧
      (∀ records, lenv.programAccounts = some records →
        ∀ pk acct, (pk, acct) ∈ records → lenv.parseRecord acct = none →
          command_list lenv = none)) := by
  refine ⟨?_, withdraw_fail_fast wenv price, ?_, ⟨?_, ?_⟩, ⟨?_, ?_⟩, ⟨?_, ?_⟩⟩
  · cases hci : collectInstructions builders with
    | none =>
      have h1 : ¬ ∀ b, b ∈ builders → b.isSome := by
        intro hall
        have h2 := (collectInstructions_isSome builders).mpr hall
        rw [hci] at h2
        exact absurd h2 (by simp)
      refine iff_of_false ?_ (fun hr => h1 hr.1)
      simp [command_submit, hci]
    | some ixs =>
      have h1 : ∀ b, b ∈ builders → b.isSome :=
        (collectInstructions_isSome builders).mp (by rw [hci]; rfl)
      obtain ⟨bh, sim⟩ := rpc
      cases bh <;> cases sendOk <;> cases price <;> rcases sim with _ | _ | u <;>
        simp [command_submit, hci, create_transaction, h1] <;> exact h1
  · obtain ⟨probe, cv, co, ⟨bh, sim⟩, send⟩ := cenv
    rcases probe with _ | _ | ⟨x, xs⟩ <;> cases cv <;> cases co <;> cases bh <;>
      cases send <;> cases price <;> rcases sim with _ | _ | u <;>
      simp [command_change_owner_with_realm, needsVoterWeightRecord, create_transaction]
  · intro hd
    simp [command_split, hd]
  · intro hp
    rcases h : senv.vestingRecordData with _ | d <;> simp [command_split, h, hp]
  · intro hd
    simp [command_info, hd]
  · intro hp
    rcases h : ienv.vestingRecordData with _ | d <;> simp [command_info, h, hp]
  · intro h
    simp [command_list, h]
  · intro records hrec pk acct hmem hparse
    simp only [command_list, hrec]
    exact collectRecords_eq_none_of_mem lenv.parseRecord records pk acct hmem hparse

/-- Witness for C7 (amended): the exception in action. With the voter
weight record probe failing and every other remote call succeeding,
change-owner with a realm still submits a transaction. -/
theorem remote_errors_fatal_except_record_probe_witness :
    (command_change_owner_with_realm
      (ChangeOwnerRealmEnv.mk none (some (Instr.app [1])) (some (Instr.app [2]))
        (RpcEnv.mk (some 0) (some (some 700))) true) (some 5)).isSome :=
  ((remote_errors_fatal_except_record_probe [] (RpcEnv.mk (some 0) (some (some 700))) true
      (WithdrawEnv.mk none (RpcEnv.mk none none) false)
      (ChangeOwnerRealmEnv.mk none (some (Instr.app [1])) (some (Instr.app [2]))
        (RpcEnv.mk (some 0) (some (some 700))) true)
      (SplitEnv.mk none none (Instr.app [0]) none none none (RpcEnv.mk none none) false)
      (InfoEnv.mk none none)
      (ListEnv.mk none (fun _ => none))
      (some 5)).2.2.1).mpr
    ⟨fun _ => rfl, rfl, rfl, fun _ => ⟨700, rfl⟩, rfl⟩
